import Mathlib

/-!
Verification of the CQKD_DHT coordination layer against its specification.

Shallow embedding of the repository's Python source:
* src/protocol/key_generation.py — bit/byte packing, the node-discovery
  wrapper, completion records;
* src/protocol/alice.py, src/protocol/bob.py — step-19 final-key extraction;
* src/core/dht_node.py, src/core/node_states.py — the per-node role lease
  and the DHT get/put/delete wrappers;
* src/CQKD_GEN/protocol/worker.py — the worker executor;
* src/CQKD_GEN/quantum/qpc.py — sifting;
* src/discovery/node_discovery.py — the discovery short-circuit;
* src/config.py — adaptive Kademlia parameters.

Conventions: Python `int` is `Nat` (every value involved is non-negative),
Python `float` settings are `ℚ` (at the default configuration values every
`int(...)` truncation coincides with CPython's double evaluation, checked
case by case in comments), wall-clock time is an abstract `Nat` of seconds,
and the DHT is an association list of string keys, newest entry first.
Async methods are embedded as pure state transformers; a per-node
`asyncio.Lock` is modelled by sequentialising the critical sections it
guards.  Effects the claims do not mention (logging, sleeping) are dropped.
-/

namespace CQKD

/-! ## Bit and byte packing
Functions `KeyGenerationOrchestrator.bits_to_bytes` / `bytes_to_bits`
(src/protocol/key_generation.py, lines 448–491). -/

/-- Inner loop of `bits_to_bytes`:
`byte = 0; for j in range(8): byte = (byte << 1) | bits_copy[i + j]`,
folded MSB-first over one chunk of (up to) 8 bits. -/
def byteOfBits (chunk : List Nat) : Nat :=
  chunk.foldl (fun b bit => (b <<< 1) ||| bit) 0

/-- Padding loop `while len(bits_copy) % 8 != 0: bits_copy.append(0)` of
`bits_to_bytes` in closed form: append `(8 - len % 8) % 8` zero bits
(zero of them when the length is already a multiple of 8). -/
def pyPadTo8 (bits : List Nat) : List Nat :=
  bits ++ List.replicate ((8 - bits.length % 8) % 8) 0

/-- Chunked packing loop of `bits_to_bytes`:
`for i in range(0, len(bits_copy), 8)` over the already padded list. -/
def bitsToBytesAux (bits : List Nat) : List Nat :=
  if bits = [] then []
  else byteOfBits (bits.take 8) :: bitsToBytesAux (bits.drop 8)
termination_by bits.length
decreasing_by
  simp only [List.length_drop]
  rename_i hne
  have : bits.length ≠ 0 := fun h => hne (List.length_eq_zero.mp h)
  omega

/-- Static method `KeyGenerationOrchestrator.bits_to_bytes`: copy the
argument (the embedding is pure, so the copy is implicit), pad with zero
bits to a multiple of 8, then pack each group of 8 bits MSB-first into one
byte.  Bytes are `Nat` values below 256. -/
def bits_to_bytes (bits : List Nat) : List Nat :=
  bitsToBytesAux (pyPadTo8 bits)

/-- Inner loop of `bytes_to_bits`:
`for i in range(7, -1, -1): bits.append((byte >> i) & 1)`. -/
def bitsOfByte (byte : Nat) : List Nat :=
  (List.range 8).map (fun j => (byte >>> (7 - j)) &&& 1)

/-- Static method `KeyGenerationOrchestrator.bytes_to_bits`: MSB-first
unpacking of every byte, concatenated in order. -/
def bytes_to_bits (data : List Nat) : List Nat :=
  (data.map bitsOfByte).flatten

/-! ## Adaptive Kademlia parameters
Methods `Settings.calculate_adaptive_kademlia_params` and
`Settings._get_network_category` (src/config.py, lines 155–221). -/

/-- Fields of `Settings` (src/config.py) consumed by
`calculate_adaptive_kademlia_params`, with the source's default values.
Python floats are carried as `ℚ`; the float literals `1.5`, `1.3` of the
scaling factors become `3/2`, `13/10`. -/
structure Settings where
  enableAdaptiveKademlia : Bool := true
  smallNetworkThreshold : Nat := 15
  mediumNetworkThreshold : Nat := 50
  largeNetworkThreshold : Nat := 100
  baseAlpha : Nat := 3
  baseK : Nat := 20
  baseQueryTimeout : ℚ := 5
  alphaScalingFactor : ℚ := 3 / 2
  kScalingFactor : ℚ := 13 / 10
  maxAlpha : Nat := 8
  maxK : Nat := 40
  maxQueryTimeout : ℚ := 20
  maxDiscoveryTime : Nat := 60
  maxDiscoveryTimeout : Nat := 180
deriving Repr, DecidableEq

/-- Module-level singleton `settings = Settings()`: every field at its
declared default. -/
def defaultSettings : Settings := {}

/-- Python `int(x)` for the non-negative values produced here: truncation
toward zero, i.e. the floor.  At the default configuration the rational
arguments are `4.5`, `26`, `9`, `39`, on which CPython's double arithmetic
(`4.5`, `26.000000000000004`, `9.0`, `39.00000000000001`) truncates to the
same integers `4`, `26`, `9`, `39`. -/
def pyInt (q : ℚ) : Nat := ⌊q⌋.toNat

/-- Dictionary returned by `calculate_adaptive_kademlia_params`.
`networkCategory` is `none` on the adaptive-disabled branch, whose dict
carries no `network_category` entry. -/
structure KademliaParams where
  alpha : Nat
  k : Nat
  queryTimeout : ℚ
  discoveryTimeout : Nat
  adaptiveEnabled : Bool
  networkCategory : Option String
deriving Repr, DecidableEq

/-- Method `Settings._get_network_category`. -/
def getNetworkCategory (s : Settings) (networkSize : Nat) : String :=
  if networkSize ≤ s.smallNetworkThreshold then "small"
  else if networkSize ≤ s.mediumNetworkThreshold then "medium"
  else if networkSize ≤ s.largeNetworkThreshold then "large"
  else "xlarge"

/-- Method `Settings.calculate_adaptive_kademlia_params`: the four branches
of the source, in order.  The medium/large query-timeout multipliers `1.6`
and `2.4` are hard-coded literals in the source (`timeout_scaling_factor`
is declared but not used there), embedded as `8/5` and `12/5`. -/
def calculate_adaptive_kademlia_params (s : Settings) (networkSize : Nat) :
    KademliaParams :=
  if ¬ s.enableAdaptiveKademlia then
    ⟨s.baseAlpha, s.baseK, s.baseQueryTimeout, s.maxDiscoveryTime, false, none⟩
  else if networkSize ≤ s.smallNetworkThreshold then
    ⟨s.baseAlpha, s.baseK, s.baseQueryTimeout, 60, true,
      some (getNetworkCategory s networkSize)⟩
  else if networkSize ≤ s.mediumNetworkThreshold then
    ⟨min s.maxAlpha (pyInt (s.baseAlpha * s.alphaScalingFactor)),
      min s.maxK (pyInt (s.baseK * s.kScalingFactor)),
      min s.maxQueryTimeout (s.baseQueryTimeout * (8 / 5)),
      90, true, some (getNetworkCategory s networkSize)⟩
  else if networkSize ≤ s.largeNetworkThreshold then
    ⟨min s.maxAlpha (pyInt (s.baseAlpha * s.alphaScalingFactor * 2)),
      min s.maxK (pyInt (s.baseK * s.kScalingFactor * (3 / 2))),
      min s.maxQueryTimeout (s.baseQueryTimeout * (12 / 5)),
      120, true, some (getNetworkCategory s networkSize)⟩
  else
    ⟨s.maxAlpha, s.maxK, s.maxQueryTimeout, s.maxDiscoveryTimeout, true,
      some (getNetworkCategory s networkSize)⟩

/-! ## Node states and the role lease
Types from src/core/node_states.py and methods `CQKDNode.request_role` /
`CQKDNode.release_role` (src/core/dht_node.py, lines 181–243).  The
`async with self._lock` mutex is modelled by sequentialising the lease
operations: every interleaving of concurrent calls on one node is some
sequence of these transformers. -/

/-- Enum `NodeState` (src/core/node_states.py). -/
inductive NodeState where
  | OFF
  | ACTIVE
  | BUSY
  | ERROR
deriving DecidableEq, Repr

/-- Enum `NodeRole` (src/core/node_states.py). -/
inductive NodeRole where
  | NONE
  | QSG
  | BG
  | QPP
  | QPM
  | QPC
deriving DecidableEq, Repr

/-- Dataclass `NodeRoleAssignment` (src/core/node_states.py); `metadata`
is dropped (the only constructor call passes the empty dict), datetimes
are seconds as `Nat`. -/
structure NodeRoleAssignment where
  role : NodeRole
  processId : String
  assignedAt : Nat
  expiresAt : Nat
deriving DecidableEq, Repr

/-- Method `NodeRoleAssignment.is_expired`:
`datetime.now() > self.expires_at`. -/
def NodeRoleAssignment.isExpired (a : NodeRoleAssignment) (now : Nat) : Bool :=
  decide (a.expiresAt < now)

/-- Lease-relevant state of a `CQKDNode` (src/core/dht_node.py):
`self.state`, `self.current_role`, `self.capabilities`. -/
structure CQKDNodeState where
  state : NodeState
  currentRole : Option NodeRoleAssignment
  capabilities : List NodeRole
deriving DecidableEq, Repr

/-- Method `CQKDNode.request_role` (src/core/dht_node.py, lines 181–229):
deny when the state is not ACTIVE, when the role is not in the
capabilities, or when a current assignment exists and is unexpired
(Python truthiness: `self.current_role and not ...is_expired()`);
otherwise assign the role with `expires_at = now + timeout_seconds` and
set the state to BUSY.  Returns the `bool` result and the state after. -/
def request_role (n : CQKDNodeState) (now : Nat) (role : NodeRole)
    (processId : String) (timeoutSeconds : Nat) : Bool × CQKDNodeState :=
  if n.state ≠ NodeState.ACTIVE then (false, n)
  else if ¬ n.capabilities.contains role then (false, n)
  else if (match n.currentRole with
           | some a => !(a.isExpired now)
           | none => false) then (false, n)
  else (true,
    { n with
      currentRole := some ⟨role, processId, now, now + timeoutSeconds⟩,
      state := NodeState.BUSY })

/-- Method `CQKDNode.release_role` (src/core/dht_node.py, lines 231–243):
clear the current assignment and return to ACTIVE. -/
def release_role (n : CQKDNodeState) : CQKDNodeState :=
  { n with currentRole := none, state := NodeState.ACTIVE }

/-- One `request_role` call in a serialised schedule of concurrent
callers: its wall-clock instant and arguments. -/
structure RoleRequest where
  now : Nat
  role : NodeRole
  processId : String
  ttl : Nat

/-- Number of successful calls in a serialised schedule of `request_role`
calls (the per-node mutex makes any interleaving such a sequence). -/
def successCount (n : CQKDNodeState) (reqs : List RoleRequest) : Nat :=
  match reqs with
  | [] => 0
  | r :: rest =>
    let g := request_role n r.now r.role r.processId r.ttl
    (if g.1 then 1 else 0) + successCount g.2 rest

/-! ## DHT value wrappers
Methods `CQKDNode.retrieve_data` / `CQKDNode.delete_data`
(src/core/dht_node.py, lines 290–334). -/

/-- Decoded JSON values, the result type of a successful `json.loads`. -/
inductive Json where
  | null
  | bool (b : Bool)
  | num (n : Int)
  | str (s : String)
  | arr (elems : List Json)
  | obj (fields : List (String × Json))

/-- Value returned by `retrieve_data`: either the raw string (JSON
decoding failed) or the decoded form. -/
inductive PyValue where
  | str (s : String)
  | json (j : Json)

/-- Modelled from the spec: Python's standard-library `json.loads`, which
is not part of this repository.  Only the fragment needed here is given;
the model is conservative (`none` wherever it does not recognise the
input, where the real parser may succeed) and agrees with `json.loads` on
every string this file evaluates it on — in particular
`json.loads("__DELETED__")` raises `JSONDecodeError`, because a bare
unquoted token other than `null`, `true`, `false` or a number is not
valid JSON, and no valid JSON document starts with an underscore. -/
def jsonLoadsModel (s : String) : Option Json :=
  if s = "null" then some Json.null
  else if s = "true" then some (Json.bool true)
  else if s = "false" then some (Json.bool false)
  else none

/-- Sentinel written by `CQKDNode.delete_data` (src/core/dht_node.py,
line 326). -/
def DELETED_SENTINEL : String := "__DELETED__"

/-- The DHT, as the layer above `kademlia.Server` sees it: string keys to
string values (structured values are stored JSON-encoded), newest write
first. -/
def Dht := List (String × String)

/-- One `server.set(key, value)`. -/
def dhtPut (dht : Dht) (key value : String) : Dht :=
  (key, value) :: dht

/-- One `server.get(key)`: latest value written at the key, if any. -/
def dhtGet (dht : Dht) (key : String) : Option String :=
  (dht.find? (fun kv => kv.1 = key)).map Prod.snd

/-- Method `CQKDNode.retrieve_data` (src/core/dht_node.py, lines
290–318), parameterised by the `json.loads` in use: on a stored string,
return the decoded form when it parses as JSON and the raw string
otherwise; absent keys stay absent.  No value is filtered. -/
def retrieve_data (jsonLoads : String → Option Json) (stored : Option String) :
    Option PyValue :=
  match stored with
  | none => none
  | some s =>
    match jsonLoads s with
    | some j => some (PyValue.json j)
    | none => some (PyValue.str s)

/-- Method `CQKDNode.delete_data` (src/core/dht_node.py, lines 320–334):
overwrite the key with the `"__DELETED__"` sentinel (the underlying DHT
has no native delete). -/
def delete_data (dht : Dht) (key : String) : Dht :=
  dhtPut dht key DELETED_SENTINEL

/-! ## The discovery wrapper of the orchestrator
Method `KeyGenerationOrchestrator.discover_available_nodes`
(src/protocol/key_generation.py, lines 63–233). -/

/-- Slice of the dict returned by `CQKDNode.get_routing_table_info`
consumed by `discover_available_nodes`: `total_nodes` and `all_nodes`
(entries reduced to their node ids). -/
structure RoutingTableInfo where
  totalNodes : Nat
  allNodes : List String
deriving DecidableEq, Repr

set_option linter.unusedVariables false in
/-- Method `KeyGenerationOrchestrator.discover_available_nodes`
(src/protocol/key_generation.py, lines 63–233).  In the source, the whole
retry loop that would invoke `SmartDiscoveryStrategy.discover_nodes`
(lines 132–231) is commented out: the function reads
`get_routing_table_info()`, raises `max_retries` to `max(max_retries+1, 3)`
when `total_nodes < required_count`, and returns `routing_info["all_nodes"]`.
`smartDiscoveryPipeline` stands for the node list the commented-out
cache → discovery → random-walk → aggressive-retry pipeline would produce;
the body never consults it.  Returns the node list together with the final
`max_retries` value. -/
def discover_available_nodes (routingInfo : RoutingTableInfo)
    (smartDiscoveryPipeline : List String) (requiredCount : Nat)
    (maxRetries : Nat) : List String × Nat :=
  let maxRetries' :=
    if routingInfo.totalNodes < requiredCount then max (maxRetries + 1) 3
    else maxRetries
  (routingInfo.allNodes, maxRetries')

/-- Completion-record status written by
`KeyGenerationOrchestrator.complete_process`
(src/protocol/key_generation.py, line 403):
`status = "completed" if success else "failed"`. -/
def completionStatus (success : Bool) : String :=
  if success then "completed" else "failed"

/-! ## Step-19 extraction
Tail of `Alice.generate_key` (src/protocol/alice.py, lines 167–199) and of
`Bob.receive_key` (src/protocol/bob.py, lines 113–146). -/

/-- Sift comprehension
`[bits[i] for i in valid_positions if i < len(bits)]` shared by both
step-19 implementations. -/
def siftedBits (bits : List Nat) (validPositions : List Nat) : List Nat :=
  (validPositions.filter (fun i => i < bits.length)).map (fun i => bits.getD i 0)

/-- Outcome of Alice's step 19: the final key bits, their packed bytes,
and the status of the completion record the run then writes. -/
structure ExtractResult where
  finalKeyBits : List Nat
  keyBytes : List Nat
  status : String
deriving DecidableEq, Repr

/-- Step 19 of `Alice.generate_key` (src/protocol/alice.py, lines
167–199): sift, then — when fewer than `lc` bits remain — log a warning
and keep the whole (short) sifted list, else truncate to `lc`; pack; then
`complete_process(success=True)` is reached on both branches, writing a
completion record with status `"completed"`. -/
def aliceExtractFinalKey (aliceBits : List Nat) (validPositions : List Nat)
    (lc : Nat) : ExtractResult :=
  let sifted := siftedBits aliceBits validPositions
  let finalKeyBits := if sifted.length < lc then sifted else sifted.take lc
  ⟨finalKeyBits, bits_to_bytes finalKeyBits, completionStatus true⟩

/-- Step 19 of `Bob.receive_key` (src/protocol/bob.py, lines 113–146):
the same sift/shorten/truncate computation over Bob's bits; the returned
pair is (final key bits, packed key bytes).  The insufficient-bits branch
logs a warning and proceeds; no exception is raised. -/
def bobExtractFinalKey (bobBits : List Nat) (validPositions : List Nat)
    (lc : Nat) : List Nat × List Nat :=
  let sifted := siftedBits bobBits validPositions
  let finalKeyBits := if sifted.length < lc then sifted else sifted.take lc
  (finalKeyBits, bits_to_bytes finalKeyBits)

/-! ## QPC sifting
Methods `QuantumPhotonCollider.sift_keys` / `execute`
(src/CQKD_GEN/quantum/qpc.py, lines 24–53 and 95–175). -/

/-- One entry of the `measurements` list consumed by `sift_keys`: the
fields the method reads, both optional because the source reads them with
`dict.get` defaults (`bases_match` defaults to `False`, `operation_id` to
the enumeration index). -/
structure Measurement where
  operationId : Option Nat
  basesMatch : Option Bool
deriving DecidableEq, Repr

/-- Loop of `QuantumPhotonCollider.sift_keys`:
`for idx, measurement in enumerate(measurements)`, appending
`measurement.get('operation_id', idx)` whenever
`measurement.get('bases_match', False)` holds. -/
def siftKeysAux (idx : Nat) : List Measurement → List Nat
  | [] => []
  | m :: rest =>
    if m.basesMatch.getD false then
      m.operationId.getD idx :: siftKeysAux (idx + 1) rest
    else siftKeysAux (idx + 1) rest

/-- Class method `QuantumPhotonCollider.sift_keys`
(src/CQKD_GEN/quantum/qpc.py, lines 24–53). -/
def sift_keys (measurements : List Measurement) : List Nat :=
  siftKeysAux 0 measurements

/-- Measurement dict with neither field present (out-of-range default for
list indexing in statements; never produced by the embedded code). -/
def mDefault : Measurement := ⟨none, none⟩

/-- Spec formulation of the sifting result, written from the spec's words
for comparison with `sift_keys`:
valid_positions = \x7b i | M[i].bases_match \x7d, ascending; a missing
`bases_match` field counts as false. -/
def specValidPositions (measurements : List Measurement) : List Nat :=
  (List.range measurements.length).filter
    (fun i => ((measurements.getD i mDefault).basesMatch).getD false)

/-- Gather loop of `QuantumPhotonCollider.execute`
(src/CQKD_GEN/quantum/qpc.py, lines 95–143): for each `operation_id` in
`[0, lk)` poll `{sid}:qpm_to_qpc:{operation_id}`; `dhtMeasurement i` is
the parsed value available there within the 60-second window (`none` for
a timeout), and a timeout appends the placeholder
`{"operation_id": i, "bases_match": False}`, preserving index
alignment. -/
def qpcCollectMeasurements (lk : Nat) (dhtMeasurement : Nat → Option Measurement) :
    List Measurement :=
  (List.range lk).map (fun i => (dhtMeasurement i).getD ⟨some i, some false⟩)

/-- Class method `QuantumPhotonCollider.execute`, reduced to the value it
stores under `{sid}:qpc_sifting_result` as `valid_positions`:
`sift_keys` of the gathered measurement list. -/
def qpcExecuteValidPositions (lk : Nat)
    (dhtMeasurement : Nat → Option Measurement) : List Nat :=
  sift_keys (qpcCollectMeasurements lk dhtMeasurement)

/-! ## Node discovery short-circuit
Methods of `NodeDiscoveryService` (src/discovery/node_discovery.py).
Node ids are 160-bit integers, carried as `Nat`. -/

/-- XOR distance between two node ids, as in
`NodeDiscoveryService._get_k_closest_nodes` (lines 926–962):
`distance = target_int ^ node_int`. -/
def xorDistance (target nodeId : Nat) : Nat := target ^^^ nodeId

/-- Method `NodeDiscoveryService._get_k_closest_nodes` (lines 926–962):
sort by XOR distance to the target ascending, take the first `k`.
Python's `list.sort` is modelled by stable insertion sort; the concrete
inputs used below have no distance ties. -/
def kClosestNodes (nodes : List Nat) (target : Nat) (k : Nat) : List Nat :=
  (nodes.insertionSort
    (fun a b => xorDistance target a ≤ xorDistance target b)).take k

/-- Method `NodeDiscoveryService._iterative_find_node`, routing-table
pre-check (lines 233–250): when the local routing table already holds at
least `target_count` nodes, short-circuit to `_fallback_local_search`,
which returns ALL local routing-table nodes in bucket order (line 483)
and issues no RPC.  The crawl path taken otherwise (spider crawl plus
direct FIND_NODE queries) is abstracted as `crawlPipeline`, paired with
the number of outbound FIND_NODE RPCs it issues.  Result: (node ids,
outbound FIND_NODE RPC count). -/
def iterative_find_node (routingTable : List Nat) (targetCount : Nat)
    (crawlPipeline : List Nat × Nat) : List Nat × Nat :=
  if targetCount ≤ routingTable.length then (routingTable, 0)
  else crawlPipeline

/-- Method `NodeDiscoveryService.discover_nodes_for_roles` (lines
45–113): calls `_iterative_find_node(target_count=required_count * 2)`.
The capability filter is vacuous for locally enumerated nodes (they are
constructed with all five capabilities, lines 806–811) and
`_verify_node_availability` returns its input unchanged (lines 964–981),
so the discovered list is the `_iterative_find_node` result itself. -/
def discover_nodes_for_roles (routingTable : List Nat) (requiredCount : Nat)
    (crawlPipeline : List Nat × Nat) : List Nat × Nat :=
  iterative_find_node routingTable (requiredCount * 2) crawlPipeline

/-! ## Worker executor
Methods `WorkerExecutor._poll_and_execute` / `_execute_command`
(src/CQKD_GEN/protocol/worker.py, lines 76–183). -/

/-- Command dict read from `cmd:{node_id}`, reduced to the fields the
worker consumes.  `role` is the parsed `NodeRole(role_str)`; `none`
models a missing/falsy `role` field (an invalid role string raises inside
`_execute_command` before any role request or write, and is swallowed by
the poll loop's `except`). -/
structure Command where
  cmdId : String
  processId : String
  role : Option NodeRole
deriving DecidableEq, Repr

/-- What one quantum-handler `execute` call does, abstractly: the DHT
writes it performs itself, and the exception it raises, if any. -/
structure HandlerOutcome where
  writes : List (String × String)
  error : Option String
deriving DecidableEq, Repr

/-- Key of the diagnostic record the worker stores on handler failure:
`f"{command['process_id']}:error:{command.get('cmd_id')}"` (line 173). -/
def errorKey (processId cmdId : String) : String :=
  processId ++ ":error:" ++ cmdId

/-- Well-known command key `f"cmd:{self.node.node_id}"` (line 83). -/
def cmdKey (nodeId : String) : String := "cmd:" ++ nodeId

/-- Result of one `_execute_command` call: whether the quantum handler
ran, whether `request_role` granted the role, the DHT writes performed
(handler writes, plus the error record on failure; the error record's
value is abstracted to the error string — the source stores a dict
containing it), and the node state after the `finally: release_role`. -/
structure ExecOutcome where
  handlerInvoked : Bool
  roleGranted : Bool
  writes : List (String × String)
  node : CQKDNodeState
deriving DecidableEq, Repr

/-- Method `WorkerExecutor._execute_command` (src/CQKD_GEN/protocol/worker.py,
lines 110–183): return early when the role is missing or not a dispatchable
role (`role_components` maps the five quantum roles, not NONE); otherwise
`await self.node.request_role(role, process_id, timeout_seconds=300)` —
whose boolean result the source discards — then unconditionally dispatch
`component_class.execute`; on an exception store the diagnostic record
under `errorKey`; finally `release_role`. -/
def execute_command (node : CQKDNodeState) (now : Nat) (cmd : Command)
    (handler : NodeRole → HandlerOutcome) : ExecOutcome :=
  match cmd.role with
  | none => ⟨false, false, [], node⟩
  | some role =>
    if role = NodeRole.NONE then ⟨false, false, [], node⟩
    else
      let g := request_role node now role cmd.processId 300
      let h := handler role
      let ws :=
        match h.error with
        | none => h.writes
        | some e => h.writes ++ [(errorKey cmd.processId cmd.cmdId, e)]
      ⟨true, g.1, ws, release_role g.2⟩

/-- Result of one `_poll_and_execute` iteration: DHT writes and deletes
performed, the `processed_commands` set after, the node state after, and
whether a handler ran. -/
structure PollOutcome where
  writes : List (String × String)
  deletes : List String
  processed : List String
  node : CQKDNodeState
  handlerInvoked : Bool
deriving DecidableEq, Repr

/-- Method `WorkerExecutor._poll_and_execute` (src/CQKD_GEN/protocol/worker.py,
lines 76–108).  `cmdAtKey` is the command parsed from `cmd:{node_id}`
(`none`: key absent, value not a dict, or retrieval failed).  A known
`cmd_id` returns immediately; a novel one is executed and then added to
`processed_commands`, which — when it exceeds 1000 entries — is replaced
by 500 of its entries (`set(list(...)[-500:])`; Python set enumeration
order is arbitrary, modelled here as insertion order).  The
`await self.node.delete_data(cmd_key)` on line 100 is commented out in
the source, so no delete is ever issued. -/
def poll_and_execute (node : CQKDNodeState) (now : Nat)
    (cmdAtKey : Option Command) (handler : NodeRole → HandlerOutcome)
    (processed : List String) : PollOutcome :=
  match cmdAtKey with
  | none => ⟨[], [], processed, node, false⟩
  | some cmd =>
    if processed.contains cmd.cmdId then ⟨[], [], processed, node, false⟩
    else
      let r := execute_command node now cmd handler
      let processed1 := processed ++ [cmd.cmdId]
      let processed2 :=
        if 1000 < processed1.length then processed1.drop (processed1.length - 500)
        else processed1
      ⟨r.writes, [], processed2, r.node, r.handlerInvoked⟩

/-- Application of a list of DHT writes, oldest first (`store_data` calls
in program order). -/
def applyWrites (dht : Dht) (writes : List (String × String)) : Dht :=
  writes.foldl (fun d kv => dhtPut d kv.1 kv.2) dht

/-! ## Lemmas on bit and byte packing -/

lemma bitsToBytesAux_nil : bitsToBytesAux [] = [] := by
  rw [bitsToBytesAux]; simp

lemma bitsToBytesAux_ne (l : List Nat) (h : l ≠ []) :
    bitsToBytesAux l = byteOfBits (l.take 8) :: bitsToBytesAux (l.drop 8) := by
  rw [bitsToBytesAux]; simp [h]

lemma bytes_to_bits_cons (x : Nat) (rest : List Nat) :
    bytes_to_bits (x :: rest) = bitsOfByte x ++ bytes_to_bits rest := by
  simp [bytes_to_bits]

/-- Packing one group of 8 bits and unpacking the resulting byte is the
identity, checked over all 2^8 combinations of bit values. -/
lemma chunk_round_trip_fin : ∀ a b c d e f g h : Fin 2,
    bitsOfByte (byteOfBits [a.val, b.val, c.val, d.val, e.val, f.val, g.val, h.val])
      = [a.val, b.val, c.val, d.val, e.val, f.val, g.val, h.val] := by decide

lemma chunk_round_trip (l : List Nat) (hlen : l.length = 8)
    (hb : ∀ b ∈ l, b < 2) : bitsOfByte (byteOfBits l) = l := by
  match l, hlen with
  | [a, b, c, d, e, f, g, h], _ =>
    have ha : a < 2 := hb a (by simp)
    have hb2 : b < 2 := hb b (by simp)
    have hc : c < 2 := hb c (by simp)
    have hd : d < 2 := hb d (by simp)
    have he : e < 2 := hb e (by simp)
    have hf : f < 2 := hb f (by simp)
    have hg : g < 2 := hb g (by simp)
    have hh : h < 2 := hb h (by simp)
    exact chunk_round_trip_fin ⟨a, ha⟩ ⟨b, hb2⟩ ⟨c, hc⟩ ⟨d, hd⟩
      ⟨e, he⟩ ⟨f, hf⟩ ⟨g, hg⟩ ⟨h, hh⟩

lemma aux_round_trip (l : List Nat) (hlen : l.length % 8 = 0)
    (hb : ∀ b ∈ l, b < 2) : bytes_to_bits (bitsToBytesAux l) = l := by
  by_cases hnil : l = []
  · subst hnil; simp [bitsToBytesAux_nil, bytes_to_bits]
  · have hlen8 : 8 ≤ l.length := by
      have : l.length ≠ 0 := fun h => hnil (List.length_eq_zero.mp h)
      omega
    rw [bitsToBytesAux_ne l hnil, bytes_to_bits_cons]
    have htake : (l.take 8).length = 8 := by simp [List.length_take]; omega
    rw [chunk_round_trip (l.take 8) htake
      (fun b hbmem => hb b (List.mem_of_mem_take hbmem))]
    rw [aux_round_trip (l.drop 8) (by simp [List.length_drop]; omega)
      (fun b hbmem => hb b (List.mem_of_mem_drop hbmem))]
    exact List.take_append_drop 8 l
termination_by l.length
decreasing_by simp [List.length_drop]; omega

lemma bits_to_bytes_single_chunk (l : List Nat) (h8 : (pyPadTo8 l).length = 8) :
    bits_to_bytes l = [byteOfBits (pyPadTo8 l)] := by
  have hne : pyPadTo8 l ≠ [] := by
    intro hnil; rw [hnil] at h8; simp at h8
  rw [bits_to_bytes, bitsToBytesAux_ne _ hne]
  have h1 : (pyPadTo8 l).take 8 = pyPadTo8 l := List.take_of_length_le (by omega)
  have h2 : (pyPadTo8 l).drop 8 = [] := List.drop_eq_nil_of_le (by omega)
  rw [h1, h2, bitsToBytesAux_nil]

/-! ## Lemmas on the role lease -/

lemma request_role_denied_state (n : CQKDNodeState) (now : Nat)
    (role : NodeRole) (pid : String) (ttl : Nat)
    (h : n.state ≠ NodeState.ACTIVE) :
    request_role n now role pid ttl = (false, n) := by
  simp [request_role, h]

lemma request_role_success_busy (n : CQKDNodeState) (now : Nat)
    (role : NodeRole) (pid : String) (ttl : Nat)
    (h : (request_role n now role pid ttl).1 = true) :
    (request_role n now role pid ttl).2.state = NodeState.BUSY := by
  unfold request_role at h ⊢
  split_ifs at h ⊢
  simp_all

lemma successCount_of_not_active (reqs : List RoleRequest) :
    ∀ n : CQKDNodeState, n.state ≠ NodeState.ACTIVE → successCount n reqs = 0 := by
  induction reqs with
  | nil => intro n _; rfl
  | cons r rest ih =>
    intro n h
    rw [successCount, request_role_denied_state n r.now r.role r.processId r.ttl h]
    simpa using ih n h

lemma successCount_le_one (reqs : List RoleRequest) (n : CQKDNodeState) :
    successCount n reqs ≤ 1 := by
  induction reqs generalizing n with
  | nil => simp [successCount]
  | cons r rest ih =>
    rw [successCount]
    by_cases hg : (request_role n r.now r.role r.processId r.ttl).1 = true
    · have hbusy := request_role_success_busy n r.now r.role r.processId r.ttl hg
      have h0 := successCount_of_not_active rest
        (request_role n r.now r.role r.processId r.ttl).2 (by rw [hbusy]; simp)
      simp [hg, h0]
    · have := ih (request_role n r.now r.role r.processId r.ttl).2
      simp only [Bool.not_eq_true] at hg
      simp [hg]
      omega

lemma request_role_false_iff (n : CQKDNodeState) (now : Nat)
    (role : NodeRole) (pid : String) (ttl : Nat) :
    (request_role n now role pid ttl).1 = false ↔
      (n.state ≠ NodeState.ACTIVE ∨ n.capabilities.contains role = false ∨
        ∃ a, n.currentRole = some a ∧ now ≤ a.expiresAt) := by
  rcases hc : n.currentRole with _ | a <;>
    · unfold request_role
      rw [hc]
      split_ifs with h1 h2 h3 <;> simp_all [NodeRoleAssignment.isExpired]

/-! ## Lemmas on the adaptive parameters -/

lemma pyInt_alpha_medium : pyInt ((9 : ℚ) / 2) = 4 := by
  norm_num [pyInt]; rfl

lemma pyInt_k_medium : pyInt (26 : ℚ) = 26 := by
  norm_num [pyInt]; rfl

lemma pyInt_alpha_large : pyInt (9 : ℚ) = 9 := by
  norm_num [pyInt]; rfl

lemma pyInt_k_large : pyInt (39 : ℚ) = 39 := by
  norm_num [pyInt]; rfl

lemma calc_default_small (n : Nat) (h : n ≤ 15) :
    calculate_adaptive_kademlia_params defaultSettings n
      = ⟨3, 20, 5, 60, true, some "small"⟩ := by
  simp [calculate_adaptive_kademlia_params, getNetworkCategory, defaultSettings, h]

lemma calc_default_medium (n : Nat) (h1 : 15 < n) (h2 : n ≤ 50) :
    calculate_adaptive_kademlia_params defaultSettings n
      = ⟨4, 26, 8, 90, true, some "medium"⟩ := by
  have hn : ¬ n ≤ 15 := by omega
  simp only [calculate_adaptive_kademlia_params, getNetworkCategory, defaultSettings]
  norm_num [hn, h2, pyInt_alpha_medium, pyInt_k_medium]

lemma calc_default_large (n : Nat) (h1 : 50 < n) (h2 : n ≤ 100) :
    calculate_adaptive_kademlia_params defaultSettings n
      = ⟨8, 39, 12, 120, true, some "large"⟩ := by
  have hn : ¬ n ≤ 15 := by omega
  have hm : ¬ n ≤ 50 := by omega
  simp only [calculate_adaptive_kademlia_params, getNetworkCategory, defaultSettings]
  norm_num [hn, hm, h2, pyInt_alpha_large, pyInt_k_large]

lemma calc_default_xlarge (n : Nat) (h : 100 < n) :
    calculate_adaptive_kademlia_params defaultSettings n
      = ⟨8, 40, 20, 180, true, some "xlarge"⟩ := by
  have hn : ¬ n ≤ 15 := by omega
  have hm : ¬ n ≤ 50 := by omega
  have hl : ¬ n ≤ 100 := by omega
  simp only [calculate_adaptive_kademlia_params, getNetworkCategory, defaultSettings]
  norm_num [hn, hm, hl]

lemma alpha_default_eq (n : Nat) :
    (calculate_adaptive_kademlia_params defaultSettings n).alpha
      = if n ≤ 15 then 3 else if n ≤ 50 then 4 else 8 := by
  split_ifs with h1 h2
  · rw [calc_default_small n h1]
  · rw [calc_default_medium n (by omega) h2]
  · by_cases h3 : n ≤ 100
    · rw [calc_default_large n (by omega) h3]
    · rw [calc_default_xlarge n (by omega)]

lemma k_default_eq (n : Nat) :
    (calculate_adaptive_kademlia_params defaultSettings n).k
      = if n ≤ 15 then 20 else if n ≤ 50 then 26 else if n ≤ 100 then 39 else 40 := by
  split_ifs with h1 h2 h3
  · rw [calc_default_small n h1]
  · rw [calc_default_medium n (by omega) h2]
  · rw [calc_default_large n (by omega) h3]
  · rw [calc_default_xlarge n (by omega)]

/-! ## Lemmas on QPC sifting -/

lemma rfm_succ (p : Nat → Bool) (f : Nat → Nat) (n : Nat) :
    ((List.range (n + 1)).filter p).map f
      = (if p 0 then [f 0] else [])
        ++ ((List.range n).filter (fun k => p (k + 1))).map (fun k => f (k + 1)) := by
  rw [List.range_succ_eq_map, List.filter_cons]
  have hcomp : (p ∘ Nat.succ) = fun k => p (k + 1) := rfl
  have hcomp2 : (f ∘ Nat.succ) = fun k => f (k + 1) := rfl
  by_cases h : p 0
  · simp [h, List.filter_map, List.map_map, hcomp, hcomp2]
  · simp [h, List.filter_map, List.map_map, hcomp, hcomp2]

lemma siftKeysAux_spec (ms : List Measurement) : ∀ idx,
    (∀ k, k < ms.length → ((ms.getD k mDefault).operationId).getD (idx + k) = idx + k) →
    siftKeysAux idx ms
      = ((List.range ms.length).filter
          (fun k => ((ms.getD k mDefault).basesMatch).getD false)).map
            (fun k => idx + k) := by
  induction ms with
  | nil => intro idx _; simp [siftKeysAux]
  | cons m rest ih =>
    intro idx hyp
    have h0 : m.operationId.getD idx = idx := by
      have := hyp 0 (by simp)
      simpa using this
    have hrest : ∀ k, k < rest.length →
        ((rest.getD k mDefault).operationId).getD ((idx + 1) + k) = (idx + 1) + k := by
      intro k hk
      have h := hyp (k + 1) (by simpa using Nat.succ_lt_succ hk)
      have harith : idx + (k + 1) = (idx + 1) + k := by omega
      rw [List.getD_cons_succ, harith] at h
      exact h
    have hih := ih (idx + 1) hrest
    rw [List.length_cons,
      rfm_succ (fun k => (((m :: rest).getD k mDefault).basesMatch).getD false)
        (fun k => idx + k) rest.length]
    have hshift : (fun k => idx + (k + 1)) = (fun k => (idx + 1) + k) := by
      funext k; omega
    simp only [List.getD_cons_zero, List.getD_cons_succ, hshift]
    by_cases hbm : m.basesMatch.getD false
    · simp [siftKeysAux, hbm, h0, hih]
    · simp [siftKeysAux, hbm, hih]

lemma sift_keys_spec (ms : List Measurement)
    (hyp : ∀ k, k < ms.length → ((ms.getD k mDefault).operationId).getD k = k) :
    sift_keys ms = specValidPositions ms := by
  have h := siftKeysAux_spec ms 0 (by simpa using hyp)
  simpa [sift_keys, specValidPositions] using h

lemma qpcCollect_length (lk : Nat) (dht : Nat → Option Measurement) :
    (qpcCollectMeasurements lk dht).length = lk := by
  simp [qpcCollectMeasurements]

lemma qpcCollect_getD (lk : Nat) (dht : Nat → Option Measurement)
    (i : Nat) (hi : i < lk) :
    (qpcCollectMeasurements lk dht).getD i mDefault
      = (dht i).getD ⟨some i, some false⟩ := by
  simp [qpcCollectMeasurements, List.getD_eq_getElem?_getD, List.getElem?_map,
    List.getElem?_range hi]

/-! ## Lemmas on the DHT and the worker -/

lemma dhtGet_put_ne (dht : Dht) (k key v : String) (h : k ≠ key) :
    dhtGet (dhtPut dht k v) key = dhtGet dht key := by
  simp [dhtGet, dhtPut, List.find?_cons, h]

lemma dhtGet_applyWrites_ne (writes : List (String × String)) :
    ∀ dht : Dht, ∀ key : String, key ∉ writes.map Prod.fst →
    dhtGet (applyWrites dht writes) key = dhtGet dht key := by
  induction writes with
  | nil => intro dht key _; rfl
  | cons kv rest ih =>
    intro dht key hmem
    simp only [List.map_cons, List.mem_cons, not_or] at hmem
    rw [applyWrites, List.foldl_cons]
    have h1 := ih (dhtPut dht kv.1 kv.2) key hmem.2
    rw [applyWrites] at h1
    rw [h1, dhtGet_put_ne dht kv.1 key kv.2 (fun he => hmem.1 he.symm)]

/-! ## Claim C1 -/

/-- C1, counterexample.  With lc = 2, alice_bits = [1] and
valid_positions = [0], only one sifted bit remains.  The claim says the
session must fail with InsufficientBitsAfterSifting and emit no key; the
code of `Alice.generate_key` (src/protocol/alice.py, lines 173–181)
instead logs a warning, emits the 1-bit key (packed as 0x80) and writes a
completion record with status "completed".  `Bob.receive_key` behaves
identically. -/
theorem c1_short_key_counterexample :
    aliceExtractFinalKey [1] [0] 2 = ⟨[1], [128], "completed"⟩
    ∧ (aliceExtractFinalKey [1] [0] 2).finalKeyBits.length ≠ 2
    ∧ bobExtractFinalKey [1] [0] 2 = ([1], [128]) := by
  have hb : bits_to_bytes [1] = [128] := by
    rw [bits_to_bytes_single_chunk _ (by decide)]; decide
  refine ⟨?_, by decide, ?_⟩
  · simp [aliceExtractFinalKey, siftedBits, completionStatus, hb]
  · simp [bobExtractFinalKey, siftedBits, hb]

/-- C1, amended: when fewer than lc bits remain after sifting, Alice's
step 19 does NOT fail — it logs a warning, keeps the whole (short) sifted
list as the final key, packs it, and still writes a completion record
with status "completed"; only when at least lc bits remain is the key
truncated to exactly lc bits.  Bob's extraction computes the same final
key bits and likewise never raises. -/
theorem c1_extraction_amended (bits validPositions : List Nat) (lc : Nat) :
    (aliceExtractFinalKey bits validPositions lc).status = "completed"
    ∧ (aliceExtractFinalKey bits validPositions lc).finalKeyBits.length
        = min (siftedBits bits validPositions).length lc
    ∧ ((siftedBits bits validPositions).length < lc →
        (aliceExtractFinalKey bits validPositions lc).finalKeyBits
          = siftedBits bits validPositions)
    ∧ (lc ≤ (siftedBits bits validPositions).length →
        (aliceExtractFinalKey bits validPositions lc).finalKeyBits
          = (siftedBits bits validPositions).take lc)
    ∧ (aliceExtractFinalKey bits validPositions lc).keyBytes
        = bits_to_bytes (aliceExtractFinalKey bits validPositions lc).finalKeyBits
    ∧ (bobExtractFinalKey bits validPositions lc).1
        = (aliceExtractFinalKey bits validPositions lc).finalKeyBits := by
  unfold aliceExtractFinalKey bobExtractFinalKey
  by_cases h : (siftedBits bits validPositions).length < lc
  · refine ⟨rfl, ?_, fun _ => by simp [h], fun hle => absurd hle (by omega), rfl, rfl⟩
    simp [h, completionStatus]
    omega
  · refine ⟨rfl, ?_, fun hlt => absurd hlt h, fun _ => by simp [h], rfl, rfl⟩
    simp [h, completionStatus, List.length_take]
    omega

/-- C1 witness: the amended theorem applied at concrete inputs, once in
the short-key branch and once in the truncation branch. -/
theorem c1_extraction_amended_witness :
    (aliceExtractFinalKey [1] [0] 2).finalKeyBits = siftedBits [1] [0]
    ∧ (aliceExtractFinalKey [1, 0] [0, 1] 1).finalKeyBits
        = (siftedBits [1, 0] [0, 1]).take 1 :=
  ⟨(c1_extraction_amended [1] [0] 2).2.2.1 (by decide),
   (c1_extraction_amended [1, 0] [0, 1] 1).2.2.2.1 (by decide)⟩

/-! ## Claim C2 -/

/-- C2: for every finite list of bits (each 0 or 1),
`bytes_to_bits (bits_to_bytes B)` is B zero-padded to a multiple of 8,
with MSB-first packing; concretely [1,0,1,0,1,0,1,0] packs to 0xAA, and
[1,1,0,0] packs to 0xC0 and unpacks to [1,1,0,0,0,0,0,0].  Both
functions are pure; the source's `bits.copy()` guard against mutation is
implicit in this pure embedding. -/
theorem c2_bit_packing_round_trip (B : List Nat) (hB : ∀ b ∈ B, b < 2) :
    bytes_to_bits (bits_to_bytes B)
      = B ++ List.replicate ((8 - B.length % 8) % 8) 0
    ∧ bits_to_bytes [1, 0, 1, 0, 1, 0, 1, 0] = [0xAA]
    ∧ bits_to_bytes [1, 1, 0, 0] = [0xC0]
    ∧ bytes_to_bits [0xC0] = [1, 1, 0, 0, 0, 0, 0, 0] := by
  refine ⟨?_, ?_, ?_, by decide⟩
  · have h1 : (pyPadTo8 B).length % 8 = 0 := by simp [pyPadTo8]; omega
    have h2 : ∀ b ∈ pyPadTo8 B, b < 2 := by
      intro b hbm
      rcases List.mem_append.mp hbm with h | h
      · exact hB b h
      · have := List.eq_of_mem_replicate h; omega
    have h3 := aux_round_trip (pyPadTo8 B) h1 h2
    rw [bits_to_bytes, h3, pyPadTo8]
  · rw [bits_to_bytes_single_chunk _ (by decide)]; decide
  · rw [bits_to_bytes_single_chunk _ (by decide)]; decide

/-- C2 witness: the round trip evaluated at B = [1,1,0,0], the spec's own
example, whose padding is four zero bits. -/
theorem c2_bit_packing_round_trip_witness :
    (∀ b ∈ [1, 1, 0, 0], b < 2)
    ∧ (bytes_to_bits (bits_to_bytes [1, 1, 0, 0])
        = [1, 1, 0, 0] ++ List.replicate ((8 - [1, 1, 0, 0].length % 8) % 8) 0
      ∧ bits_to_bytes [1, 0, 1, 0, 1, 0, 1, 0] = [0xAA]
      ∧ bits_to_bytes [1, 1, 0, 0] = [0xC0]
      ∧ bytes_to_bits [0xC0] = [1, 1, 0, 0, 0, 0, 0, 0]) :=
  ⟨by decide, c2_bit_packing_round_trip [1, 1, 0, 0] (by decide)⟩

/-! ## Claim C3 -/

/-- C3: `request_role` (serialised by the per-node mutex, modelled as
sequential execution) returns false exactly when the state is not
ACTIVE, or the role is outside the node's capabilities, or an unexpired
assignment exists; a successful call switches the state to BUSY with
`expires_at = now + ttl`; and across any serialised interleaving of
concurrent `request_role` calls (no releases in between), at most one
call succeeds — in particular none succeeds while an unexpired
assignment exists, by the first part. -/
theorem c3_role_lease_mutual_exclusion (n : CQKDNodeState) (now : Nat)
    (role : NodeRole) (pid : String) (ttl : Nat) :
    ((request_role n now role pid ttl).1 = false ↔
      (n.state ≠ NodeState.ACTIVE ∨ n.capabilities.contains role = false ∨
        ∃ a, n.currentRole = some a ∧ now ≤ a.expiresAt))
    ∧ ((request_role n now role pid ttl).1 = true →
        (request_role n now role pid ttl).2 =
          { n with
            state := NodeState.BUSY,
            currentRole := some ⟨role, pid, now, now + ttl⟩ })
    ∧ (∀ reqs : List RoleRequest, successCount n reqs ≤ 1) := by
  refine ⟨request_role_false_iff n now role pid ttl, ?_, fun reqs => successCount_le_one reqs n⟩
  intro h
  unfold request_role at h ⊢
  split_ifs at h ⊢
  rfl

/-- C3 witness: on an ACTIVE node with no current assignment and QSG in
its capabilities, a request at time 7 with ttl 300 succeeds and leaves
the node BUSY with the assignment expiring at 307. -/
theorem c3_role_lease_mutual_exclusion_witness :
    (request_role ⟨NodeState.ACTIVE, none, [NodeRole.QSG]⟩ 7 NodeRole.QSG "sid" 300).2
      = ⟨NodeState.BUSY, some ⟨NodeRole.QSG, "sid", 7, 307⟩, [NodeRole.QSG]⟩ :=
  (c3_role_lease_mutual_exclusion ⟨NodeState.ACTIVE, none, [NodeRole.QSG]⟩
    7 NodeRole.QSG "sid" 300).2.1 (by decide)

/-! ## Claim C4 -/

/-- C4: evaluation of the code at the failing input.  A coordinator whose
routing table lists exactly one peer n1 and whose Smart Discovery
pipeline would return five peers: `discover_available_nodes` with
required_count = 5 and max_retries = 3 returns the single routing-table
entry (with the retry budget raised to 4 but never used) — not the
pipeline's result, because the pipeline invocation (lines 132–231 of
src/protocol/key_generation.py) is commented out.  The third conjunct
shows the result never depends on the pipeline at all. -/
theorem c4_discovery_bypassed :
    discover_available_nodes ⟨1, ["n1"]⟩ ["n2", "n3", "n4", "n5", "n6"] 5 3
      = (["n1"], 4)
    ∧ (discover_available_nodes ⟨1, ["n1"]⟩ ["n2", "n3", "n4", "n5", "n6"] 5 3).1
        ≠ ["n2", "n3", "n4", "n5", "n6"]
    ∧ (∀ (info : RoutingTableInfo) (p1 p2 : List String) (rc mr : Nat),
        discover_available_nodes info p1 rc mr
          = discover_available_nodes info p2 rc mr) :=
  ⟨by decide, by decide, fun _ _ _ _ _ => rfl⟩

/-! ## Claim C5 -/

/-- C5, counterexample.  A worker node that is BUSY with an unexpired QSG
assignment: `request_role` for the incoming BG command is denied, yet
`_execute_command` (src/CQKD_GEN/protocol/worker.py, lines 133–148)
discards the boolean and dispatches the quantum handler anyway, and the
handler's result write is performed — contradicting "no handler is
invoked and no result keys are written" on denial. -/
theorem c5_dispatch_despite_denial :
    (request_role
        ⟨NodeState.BUSY, some ⟨NodeRole.QSG, "p0", 0, 1000⟩,
          [NodeRole.QSG, NodeRole.BG, NodeRole.QPP, NodeRole.QPM, NodeRole.QPC]⟩
        5 NodeRole.BG "p1" 300).1 = false
    ∧ (execute_command
        ⟨NodeState.BUSY, some ⟨NodeRole.QSG, "p0", 0, 1000⟩,
          [NodeRole.QSG, NodeRole.BG, NodeRole.QPP, NodeRole.QPM, NodeRole.QPC]⟩
        5 ⟨"c1", "p1", some NodeRole.BG⟩
        (fun _ => ⟨[("p1:qsg_result:0", "r")], none⟩)).handlerInvoked = true
    ∧ (execute_command
        ⟨NodeState.BUSY, some ⟨NodeRole.QSG, "p0", 0, 1000⟩,
          [NodeRole.QSG, NodeRole.BG, NodeRole.QPP, NodeRole.QPM, NodeRole.QPC]⟩
        5 ⟨"c1", "p1", some NodeRole.BG⟩
        (fun _ => ⟨[("p1:qsg_result:0", "r")], none⟩)).writes ≠ [] := by
  refine ⟨by decide, rfl, ?_⟩
  intro h
  simp [execute_command, request_role] at h

/-- C5, amended: for every command carrying a dispatchable role, the
worker requests that role with the conservative 300-second TTL and then
dispatches the matching quantum handler REGARDLESS of whether the role
was granted; a denial (RoleBusy / RoleDenied) does not suppress the
handler or its writes.  The role is released afterwards on every path,
and on handler success the DHT writes are exactly the handler's own. -/
theorem c5_worker_dispatch_amended (node : CQKDNodeState) (now : Nat)
    (cmd : Command) (handler : NodeRole → HandlerOutcome) (role : NodeRole)
    (hrole : cmd.role = some role) (hvalid : role ≠ NodeRole.NONE) :
    (execute_command node now cmd handler).handlerInvoked = true
    ∧ (execute_command node now cmd handler).roleGranted
        = (request_role node now role cmd.processId 300).1
    ∧ (execute_command node now cmd handler).node
        = release_role (request_role node now role cmd.processId 300).2
    ∧ ((handler role).error = none →
        (execute_command node now cmd handler).writes = (handler role).writes) := by
  unfold execute_command
  rw [hrole]
  simp only [hvalid, if_false]
  exact ⟨by simp, by simp, by simp, fun herr => by simp [herr]⟩

/-- C5 witness: the amended theorem at the busy-node input, showing the
handler runs and its write goes through even though the grant failed. -/
theorem c5_worker_dispatch_amended_witness :
    (execute_command
        ⟨NodeState.BUSY, some ⟨NodeRole.QSG, "p0", 0, 1000⟩,
          [NodeRole.QSG, NodeRole.BG, NodeRole.QPP, NodeRole.QPM, NodeRole.QPC]⟩
        6 ⟨"c2", "p1", some NodeRole.QPM⟩
        (fun _ => ⟨[("p1:qpm_result:0", "r")], none⟩)).handlerInvoked = true
    ∧ (execute_command
        ⟨NodeState.BUSY, some ⟨NodeRole.QSG, "p0", 0, 1000⟩,
          [NodeRole.QSG, NodeRole.BG, NodeRole.QPP, NodeRole.QPM, NodeRole.QPC]⟩
        6 ⟨"c2", "p1", some NodeRole.QPM⟩
        (fun _ => ⟨[("p1:qpm_result:0", "r")], none⟩)).writes
        = [("p1:qpm_result:0", "r")] :=
  ⟨(c5_worker_dispatch_amended _ 6 _ _ NodeRole.QPM rfl (by decide)).1,
   (c5_worker_dispatch_amended _ 6 _ _ NodeRole.QPM rfl (by decide)).2.2.2 rfl⟩

/-! ## Claim C6 -/

/-- C6, counterexample.  After `delete_data` writes the sentinel at a
key, `retrieve_data` on that key returns the raw string "__DELETED__" —
it does NOT treat it as absent, contradicting the claim.  (The sentinel
is not valid JSON, so the decode attempt falls through to the raw
string; only callers such as Bob's handshake loop filter it.) -/
theorem c6_sentinel_not_absent :
    retrieve_data jsonLoadsModel (dhtGet (delete_data [] "k") "k")
      = some (PyValue.str DELETED_SENTINEL)
    ∧ some (PyValue.str DELETED_SENTINEL) ≠ none := by
  exact ⟨rfl, by simp⟩

/-- C6, amended: `retrieve_data` returns absent exactly when the key is
absent; on a stored string it returns the JSON-decoded form when
decoding succeeds and the raw string otherwise; `delete_data` writes the
"__DELETED__" sentinel; and a stored sentinel is never reported as
absent (its filtering is left to callers), whichever JSON parser is
plugged in. -/
theorem c6_retrieve_data_amended (jsonLoads : String → Option Json) :
    (∀ stored, retrieve_data jsonLoads stored = none ↔ stored = none)
    ∧ (∀ s, retrieve_data jsonLoads (some s)
        = some (match jsonLoads s with
                | some j => PyValue.json j
                | none => PyValue.str s))
    ∧ (∀ (dht : Dht) (key : String),
        dhtGet (delete_data dht key) key = some DELETED_SENTINEL)
    ∧ retrieve_data jsonLoads (some DELETED_SENTINEL) ≠ none := by
  refine ⟨?_, ?_, ?_, ?_⟩
  · intro stored
    rcases stored with _ | s
    · simp [retrieve_data]
    · rcases h : jsonLoads s with _ | j <;> simp [retrieve_data, h]
  · intro s
    rcases h : jsonLoads s with _ | j <;> simp [retrieve_data, h]
  · intro dht key
    simp [delete_data, dhtPut, dhtGet]
  · rcases h : jsonLoads DELETED_SENTINEL with _ | j <;> simp [retrieve_data, h]

/-- C6 witness: the amended theorem at the modelled `json.loads`,
specialised to a freshly deleted key. -/
theorem c6_retrieve_data_amended_witness :
    dhtGet (delete_data [] "cqkd_process_id") "cqkd_process_id"
      = some DELETED_SENTINEL
    ∧ retrieve_data jsonLoadsModel (some DELETED_SENTINEL) ≠ none :=
  ⟨(c6_retrieve_data_amended jsonLoadsModel).2.2.1 [] "cqkd_process_id",
   (c6_retrieve_data_amended jsonLoadsModel).2.2.2⟩

/-! ## Claim C7 -/

/-- C7, counterexample.  `sift_keys` appends
`measurement.get('operation_id', idx)`, not the list index: a
single-element list whose measurement carries operation_id = 3 and
bases_match = true sifts to [3], while the claimed
valid_positions = \x7b i | M[i].bases_match \x7d is [0]. -/
theorem c7_sift_keys_counterexample :
    sift_keys [⟨some 3, some true⟩] = [3]
    ∧ specValidPositions [⟨some 3, some true⟩] = [0]
    ∧ sift_keys [⟨some 3, some true⟩]
        ≠ specValidPositions [⟨some 3, some true⟩] := by
  decide

/-- C7, amended: `execute` gathers one measurement per index in
[0, lk), recording a missing entry as
`{operation_id: i, bases_match: false}` so that index alignment is
preserved, and emits `sift_keys` of that list; and WHEN every gathered
measurement's operation_id field matches its index (as holds in the
pipeline, where QPM stores `operation_id = i` under
`{sid}:qpm_to_qpc:{i}` and placeholders carry their own index), the
emitted valid_positions equal \x7b i | M[i].bases_match \x7d. -/
theorem c7_qpc_sifting_amended (lk : Nat) (dht : Nat → Option Measurement)
    (hop : ∀ i m, dht i = some m → m.operationId.getD i = i) :
    (qpcCollectMeasurements lk dht).length = lk
    ∧ (∀ i, i < lk →
        (qpcCollectMeasurements lk dht).getD i mDefault
          = (dht i).getD ⟨some i, some false⟩)
    ∧ qpcExecuteValidPositions lk dht
        = specValidPositions (qpcCollectMeasurements lk dht) := by
  refine ⟨qpcCollect_length lk dht, fun i hi => qpcCollect_getD lk dht i hi, ?_⟩
  unfold qpcExecuteValidPositions
  apply sift_keys_spec
  intro k hk
  rw [qpcCollect_length lk dht] at hk
  rw [qpcCollect_getD lk dht k hk]
  rcases hdht : dht k with _ | m
  · simp
  · simpa using hop k m hdht

/-- C7 witness: a two-slot session in which slot 0 was measured with
matching bases and slot 1 timed out. -/
theorem c7_qpc_sifting_amended_witness :
    qpcExecuteValidPositions 2
        (fun i => if i = 0 then some ⟨some 0, some true⟩ else none)
      = specValidPositions (qpcCollectMeasurements 2
        (fun i => if i = 0 then some ⟨some 0, some true⟩ else none)) :=
  (c7_qpc_sifting_amended 2
    (fun i => if i = 0 then some ⟨some 0, some true⟩ else none)
    (fun i m h => by
      simp only [] at h
      rcases eq_or_ne i 0 with hi | hi
      · subst hi
        rw [if_pos rfl] at h
        cases h
        rfl
      · rw [if_neg hi] at h
        cases h)).2.2

/-! ## Claim C8 -/

/-- C8, counterexample.  With required_count = 2: a routing table of four
peers short-circuits (zero RPCs) but returns all four entries in table
order, not the top 2 by XOR distance; and a routing table of exactly
required_count peers does NOT short-circuit at all, because
`discover_nodes_for_roles` asks `_iterative_find_node` for
`required_count * 2` nodes — the crawl pipeline (here issuing 7 RPCs)
runs. -/
theorem c8_shortcircuit_counterexample :
    discover_nodes_for_roles [1, 2, 3, 4] 2 ([99], 7) = ([1, 2, 3, 4], 0)
    ∧ (discover_nodes_for_roles [1, 2, 3, 4] 2 ([99], 7)).1
        ≠ kClosestNodes [1, 2, 3, 4] 0 2
    ∧ discover_nodes_for_roles [1, 2] 2 ([99], 7) = ([99], 7)
    ∧ (discover_nodes_for_roles [1, 2] 2 ([99], 7)).2 ≠ 0 := by
  decide

/-- C8, amended: `_iterative_find_node` short-circuits — issuing zero
outbound FIND_NODE RPCs — exactly when the local routing table already
holds its `target_count` many entries, and the short-circuit returns ALL
local routing-table entries in table order (not a top-`target_count`
XOR-sorted front segment); through `discover_nodes_for_roles` the threshold is
`2 · required_count`, since it requests twice the required number. -/
theorem c8_discovery_shortcircuit_amended (routingTable : List Nat)
    (targetCount requiredCount : Nat) (crawlPipeline : List Nat × Nat) :
    (targetCount ≤ routingTable.length →
      iterative_find_node routingTable targetCount crawlPipeline
        = (routingTable, 0))
    ∧ (routingTable.length < targetCount →
      iterative_find_node routingTable targetCount crawlPipeline
        = crawlPipeline)
    ∧ (2 * requiredCount ≤ routingTable.length →
      discover_nodes_for_roles routingTable requiredCount crawlPipeline
        = (routingTable, 0)) := by
  refine ⟨fun h => ?_, fun h => ?_, fun h => ?_⟩
  · simp [iterative_find_node, h]
  · simp [iterative_find_node, Nat.not_le.mpr h]
  · have h2 : requiredCount * 2 ≤ routingTable.length := by omega
    simp [discover_nodes_for_roles, iterative_find_node, h2]

/-- C8 witness: the amended theorem at a four-peer table with
required_count 2 (short-circuit) and at a two-peer table with
target_count 4 (crawl path). -/
theorem c8_discovery_shortcircuit_amended_witness :
    discover_nodes_for_roles [1, 2, 3, 4] 2 ([99], 7) = ([1, 2, 3, 4], 0)
    ∧ iterative_find_node [1, 2] 4 ([99], 7) = ([99], 7) :=
  ⟨(c8_discovery_shortcircuit_amended [1, 2, 3, 4] 0 2 ([99], 7)).2.2 (by decide),
   (c8_discovery_shortcircuit_amended [1, 2] 4 2 ([99], 7)).2.1 (by decide)⟩

/-! ## Claim C9 -/

/-- C9, counterexample.  At the default configuration, N = 25 (bucket
16–50) yields α = int(3·1.5) = 4, not the claimed ⌈3·1.5⌉ = 5 (Python's
`int()` truncates); and N = 75 (bucket 51–100) yields
k = int(20·1.3·1.5) = 39, not the claimed ⌈20·2⌉ = 40 — the source
multiplies the 1.3 factor by 1.5, not the base by 2. -/
theorem c9_adaptive_params_counterexample :
    (calculate_adaptive_kademlia_params defaultSettings 25).alpha = 4
    ∧ (⌈(3 : ℚ) * (3 / 2)⌉).toNat = 5
    ∧ (calculate_adaptive_kademlia_params defaultSettings 25).alpha
        ≠ (⌈(3 : ℚ) * (3 / 2)⌉).toNat
    ∧ (calculate_adaptive_kademlia_params defaultSettings 75).k = 39
    ∧ (⌈(20 : ℚ) * 2⌉).toNat = 40
    ∧ (calculate_adaptive_kademlia_params defaultSettings 75).k
        ≠ (⌈(20 : ℚ) * 2⌉).toNat := by
  have ha : (calculate_adaptive_kademlia_params defaultSettings 25).alpha = 4 := by
    rw [calc_default_medium 25 (by omega) (by omega)]
  have hk : (calculate_adaptive_kademlia_params defaultSettings 75).k = 39 := by
    rw [calc_default_large 75 (by omega) (by omega)]
  have hc1 : (⌈(3 : ℚ) * (3 / 2)⌉).toNat = 5 := by
    have h : ⌈(3 : ℚ) * (3 / 2)⌉ = 5 := by
      rw [Int.ceil_eq_iff]
      norm_num
    rw [h]; rfl
  have hc2 : (⌈(20 : ℚ) * 2⌉).toNat = 40 := by
    have h : ⌈(20 : ℚ) * 2⌉ = 40 := by
      rw [Int.ceil_eq_iff]
      norm_num
    rw [h]; rfl
  exact ⟨ha, hc1, by omega, hk, hc2, by omega⟩

/-- C9, amended: the scaling uses Python `int()` truncation capped by the
configured maxima, not ceilings — for 16–50, α = min(α_max, ⌊base·1.5⌋)
and k = min(k_max, ⌊base·1.3⌋) with query_timeout = min(qt_max, base·1.6)
and discovery timeout 90 s; for 51–100, α = min(α_max, ⌊base·3⌋) and
k = min(k_max, ⌊base·1.95⌋) with query_timeout = min(qt_max, base·2.4)
and discovery timeout 120 s; N ≤ 15 keeps the base values, and N > 100
takes all four configured maxima (at the defaults α already reaches
α_max = 8 in the 51–100 bucket).  At the defaults the four claims'
sample sizes 10, 25, 75, 250 land in categories small, medium, large,
xlarge with α = 3, 4, 8, 8 monotone non-decreasing and k ≤ k_max
throughout. -/
theorem c9_adaptive_params_amended (s : Settings) (n : Nat) :
    (s.enableAdaptiveKademlia = true → s.smallNetworkThreshold < n →
      n ≤ s.mediumNetworkThreshold →
      calculate_adaptive_kademlia_params s n
        = ⟨min s.maxAlpha (pyInt (s.baseAlpha * s.alphaScalingFactor)),
           min s.maxK (pyInt (s.baseK * s.kScalingFactor)),
           min s.maxQueryTimeout (s.baseQueryTimeout * (8 / 5)),
           90, true, some (getNetworkCategory s n)⟩)
    ∧ (s.enableAdaptiveKademlia = true → s.smallNetworkThreshold < n →
      s.mediumNetworkThreshold < n → n ≤ s.largeNetworkThreshold →
      calculate_adaptive_kademlia_params s n
        = ⟨min s.maxAlpha (pyInt (s.baseAlpha * s.alphaScalingFactor * 2)),
           min s.maxK (pyInt (s.baseK * s.kScalingFactor * (3 / 2))),
           min s.maxQueryTimeout (s.baseQueryTimeout * (12 / 5)),
           120, true, some (getNetworkCategory s n)⟩)
    ∧ (n ≤ 15 → calculate_adaptive_kademlia_params defaultSettings n
        = ⟨3, 20, 5, 60, true, some "small"⟩)
    ∧ (15 < n → n ≤ 50 → calculate_adaptive_kademlia_params defaultSettings n
        = ⟨4, 26, 8, 90, true, some "medium"⟩)
    ∧ (50 < n → n ≤ 100 → calculate_adaptive_kademlia_params defaultSettings n
        = ⟨8, 39, 12, 120, true, some "large"⟩)
    ∧ (100 < n → calculate_adaptive_kademlia_params defaultSettings n
        = ⟨8, 40, 20, 180, true, some "xlarge"⟩)
    ∧ (∀ m k, m ≤ k →
        (calculate_adaptive_kademlia_params defaultSettings m).alpha
          ≤ (calculate_adaptive_kademlia_params defaultSettings k).alpha)
    ∧ (∀ m, (calculate_adaptive_kademlia_params defaultSettings m).k
        ≤ defaultSettings.maxK) := by
  refine ⟨?_, ?_, calc_default_small n, fun h1 h2 => calc_default_medium n h1 h2,
    fun h1 h2 => calc_default_large n h1 h2, calc_default_xlarge n, ?_, ?_⟩
  · intro he h1 h2
    unfold calculate_adaptive_kademlia_params
    rw [if_neg (by simp [he]), if_neg (by omega), if_pos h2]
  · intro he h0 h1 h2
    unfold calculate_adaptive_kademlia_params
    rw [if_neg (by simp [he]), if_neg (by omega), if_neg (by omega), if_pos h2]
  · intro m k h
    rw [alpha_default_eq, alpha_default_eq]
    split_ifs <;> omega
  · intro m
    rw [k_default_eq]
    have : defaultSettings.maxK = 40 := rfl
    rw [this]
    split_ifs <;> omega

/-- C9 witness: the amended theorem at the default settings, N = 25 and
N = 75 — the two buckets where the truncated values differ from the
claim's ceilings. -/
theorem c9_adaptive_params_amended_witness :
    calculate_adaptive_kademlia_params defaultSettings 25
      = ⟨4, 26, 8, 90, true, some "medium"⟩
    ∧ calculate_adaptive_kademlia_params defaultSettings 75
      = ⟨8, 39, 12, 120, true, some "large"⟩ :=
  ⟨(c9_adaptive_params_amended defaultSettings 25).2.2.2.1 (by omega) (by omega),
   (c9_adaptive_params_amended defaultSettings 75).2.2.2.2.1 (by omega) (by omega)⟩

lemma poll_and_execute_some (node : CQKDNodeState) (now : Nat) (cmd : Command)
    (handler : NodeRole → HandlerOutcome) (processed : List String) :
    poll_and_execute node now (some cmd) handler processed
      = if processed.contains cmd.cmdId then ⟨[], [], processed, node, false⟩
        else
          let r := execute_command node now cmd handler
          let processed1 := processed ++ [cmd.cmdId]
          let processed2 :=
            if 1000 < processed1.length then processed1.drop (processed1.length - 500)
            else processed1
          ⟨r.writes, [], processed2, r.node, r.handlerInvoked⟩ := rfl

lemma execute_command_writes_mem (node : CQKDNodeState) (now : Nat)
    (cmd : Command) (handler : NodeRole → HandlerOutcome)
    (kv : String × String)
    (hkv : kv ∈ (execute_command node now cmd handler).writes) :
    (∃ role, cmd.role = some role ∧ kv ∈ (handler role).writes)
    ∨ (∃ role e, cmd.role = some role ∧ (handler role).error = some e
        ∧ kv = (errorKey cmd.processId cmd.cmdId, e)) := by
  unfold execute_command at hkv
  rcases hrole : cmd.role with _ | role
  · rw [hrole] at hkv
    simp at hkv
  · rw [hrole] at hkv
    by_cases hN : role = NodeRole.NONE
    · simp [hN] at hkv
    · simp only [hN, if_false] at hkv
      rcases herr : (handler role).error with _ | e
      · simp only [herr] at hkv
        exact Or.inl ⟨role, rfl, hkv⟩
      · simp only [herr] at hkv
        rcases List.mem_append.mp hkv with hmem | hmem
        · exact Or.inl ⟨role, rfl, hmem⟩
        · simp only [List.mem_singleton] at hmem
          exact Or.inr ⟨role, e, rfl, herr, hmem⟩

/-! ## Claim C10 -/

/-- C10: one `_poll_and_execute` iteration on a present command issues no
DHT delete (the `delete_data(cmd_key)` call is commented out); every DHT
write is either a write of the dispatched handler itself or the
diagnostic record under `{process_id}:error:{cmd_id}` on handler
failure; consequently the stored command value at `cmd:{node_id}`
survives processing (given the handler does not itself write that key,
which its result-key namespace guarantees); a duplicate cmd_id is
suppressed purely by the in-memory `processed_commands` set; and that
set grows by one per novel command until it exceeds 1000 entries,
whereupon it is cut to 500. -/
theorem c10_worker_frame (node : CQKDNodeState) (now : Nat) (cmd : Command)
    (handler : NodeRole → HandlerOutcome) (processed : List String)
    (nodeId : String) (dht : Dht)
    (hhk : ∀ role : NodeRole, cmdKey nodeId ∉ ((handler role).writes.map Prod.fst))
    (hek : errorKey cmd.processId cmd.cmdId ≠ cmdKey nodeId) :
    (poll_and_execute node now (some cmd) handler processed).deletes = []
    ∧ (∀ kv ∈ (poll_and_execute node now (some cmd) handler processed).writes,
        (∃ role, cmd.role = some role ∧ kv ∈ (handler role).writes)
        ∨ (∃ role e, cmd.role = some role ∧ (handler role).error = some e
            ∧ kv = (errorKey cmd.processId cmd.cmdId, e)))
    ∧ dhtGet (applyWrites dht
          (poll_and_execute node now (some cmd) handler processed).writes)
        (cmdKey nodeId) = dhtGet dht (cmdKey nodeId)
    ∧ (processed.contains cmd.cmdId = true →
        (poll_and_execute node now (some cmd) handler processed).writes = []
        ∧ (poll_and_execute node now (some cmd) handler processed).handlerInvoked
            = false
        ∧ (poll_and_execute node now (some cmd) handler processed).processed
            = processed)
    ∧ (processed.contains cmd.cmdId = false →
        (processed.length = 1000 →
          (poll_and_execute node now (some cmd) handler processed).processed.length
            = 500)
        ∧ (processed.length < 1000 →
          (poll_and_execute node now (some cmd) handler processed).processed.length
            = processed.length + 1)) := by
  have hwrites : ∀ kv ∈ (poll_and_execute node now (some cmd) handler processed).writes,
      (∃ role, cmd.role = some role ∧ kv ∈ (handler role).writes)
      ∨ (∃ role e, cmd.role = some role ∧ (handler role).error = some e
          ∧ kv = (errorKey cmd.processId cmd.cmdId, e)) := by
    intro kv hkv
    rw [poll_and_execute_some] at hkv
    by_cases hdup : processed.contains cmd.cmdId = true
    · rw [if_pos hdup] at hkv
      simp at hkv
    · rw [if_neg hdup] at hkv
      exact execute_command_writes_mem node now cmd handler kv hkv
  refine ⟨?_, hwrites, ?_, ?_, ?_⟩
  · rw [poll_and_execute_some]
    by_cases hdup : processed.contains cmd.cmdId = true
    · rw [if_pos hdup]
    · rw [if_neg hdup]
  · apply dhtGet_applyWrites_ne
    intro hmem
    rcases List.mem_map.mp hmem with ⟨kv, hkv, hfst⟩
    rcases hwrites kv hkv with ⟨role, _, hmemw⟩ | ⟨role, e, _, _, hkve⟩
    · exact hhk role (List.mem_map.mpr ⟨kv, hmemw, hfst⟩)
    · apply hek
      rw [← hfst, hkve]
  · intro hdup
    rw [poll_and_execute_some, if_pos hdup]
    exact ⟨rfl, rfl, rfl⟩
  · intro hdup
    have hdup2 : ¬ processed.contains cmd.cmdId = true := by
      intro h
      rw [h] at hdup
      cases hdup
    rw [poll_and_execute_some, if_neg hdup2]
    constructor
    · intro hlen
      show (if 1000 < (processed ++ [cmd.cmdId]).length then
          (processed ++ [cmd.cmdId]).drop ((processed ++ [cmd.cmdId]).length - 500)
        else processed ++ [cmd.cmdId]).length = 500
      rw [if_pos (by simp [hlen])]
      simp [List.length_drop, hlen]
    · intro hlen
      show (if 1000 < (processed ++ [cmd.cmdId]).length then
          (processed ++ [cmd.cmdId]).drop ((processed ++ [cmd.cmdId]).length - 500)
        else processed ++ [cmd.cmdId]).length = processed.length + 1
      rw [if_neg (by simp; omega)]
      simp

/-- C10 witness: a worker at node w1 processing a novel QSG command whose
handler writes only its result key; the command key is untouched and the
processed set grows from 0 to 1 entries. -/
theorem c10_worker_frame_witness :
    (poll_and_execute ⟨NodeState.ACTIVE, none, [NodeRole.QSG]⟩ 3
        (some ⟨"c0", "p0", some NodeRole.QSG⟩)
        (fun _ => ⟨[("p0:qsg_result:0", "1")], none⟩) []).deletes = []
    ∧ dhtGet (applyWrites [(cmdKey "w1", "cmdvalue")]
        (poll_and_execute ⟨NodeState.ACTIVE, none, [NodeRole.QSG]⟩ 3
          (some ⟨"c0", "p0", some NodeRole.QSG⟩)
          (fun _ => ⟨[("p0:qsg_result:0", "1")], none⟩) []).writes)
        (cmdKey "w1") = dhtGet [(cmdKey "w1", "cmdvalue")] (cmdKey "w1")
    ∧ (poll_and_execute ⟨NodeState.ACTIVE, none, [NodeRole.QSG]⟩ 3
        (some ⟨"c0", "p0", some NodeRole.QSG⟩)
        (fun _ => ⟨[("p0:qsg_result:0", "1")], none⟩) []).processed.length = 1 :=
  ⟨(c10_worker_frame ⟨NodeState.ACTIVE, none, [NodeRole.QSG]⟩ 3
      ⟨"c0", "p0", some NodeRole.QSG⟩ (fun _ => ⟨[("p0:qsg_result:0", "1")], none⟩)
      [] "w1" [(cmdKey "w1", "cmdvalue")]
      (fun r => by
        show cmdKey "w1" ∉ List.map Prod.fst [("p0:qsg_result:0", "1")]
        decide) (by decide)).1,
   (c10_worker_frame ⟨NodeState.ACTIVE, none, [NodeRole.QSG]⟩ 3
      ⟨"c0", "p0", some NodeRole.QSG⟩ (fun _ => ⟨[("p0:qsg_result:0", "1")], none⟩)
      [] "w1" [(cmdKey "w1", "cmdvalue")]
      (fun r => by
        show cmdKey "w1" ∉ List.map Prod.fst [("p0:qsg_result:0", "1")]
        decide) (by decide)).2.2.1,
   ((c10_worker_frame ⟨NodeState.ACTIVE, none, [NodeRole.QSG]⟩ 3
      ⟨"c0", "p0", some NodeRole.QSG⟩ (fun _ => ⟨[("p0:qsg_result:0", "1")], none⟩)
      [] "w1" [(cmdKey "w1", "cmdvalue")]
      (fun r => by
        show cmdKey "w1" ∉ List.map Prod.fst [("p0:qsg_result:0", "1")]
        decide) (by decide)).2.2.2.2
      (by decide)).2 (by decide)⟩

end CQKD
